import Mathlib

/-!
# TruthSignal — verification of the core analysis pipeline

Shallow embedding of the TruthSignal repository's core modules:

* `score_aggregator.py`  — `calculate_trust_score` and `_generate_final_analysis`
* `affiliate_scanner.py` — the regex-based affiliate link detector (v1)
* `affiliate_scanner_v2.py` — URL normalization and the extended pattern table (v2)
* `llm_analysis.py`      — provider fallback (`FreeLLMClient.call_provider`) and
  the fail-closed response validation of `analyze_with_llm`

Python strings are modelled as `String` where only whole-string operations
occur, and as `List Char` where the code slices, scans or measures
characters (Python strings index by code point, as `List Char` does).
Python `int`/`float` are modelled as `Int`/`ℚ`; Python dictionaries with
optional keys become structures of `Option`-typed fields read through
`Option.getD`, mirroring `dict.get(key, default)`.
-/

set_option autoImplicit false

namespace TruthSignal

/-! ## score_aggregator.py

`calculate_trust_score(affiliate_data, llm_data)` reads its two input
dictionaries only through `.get` with defaults.  The dictionaries are
modelled as structures whose fields are `Option`-typed: `none` models an
absent key (e.g. the `{"error": ...}` dictionaries the orchestrator in
`main.py` substitutes after a module failure, which contain none of the
expected keys). -/

/-- Input dictionary produced by the affiliate scanner
(`affiliate_links_count`, `affiliate_domains`, `total_links`,
`affiliate_ratio`); every key may be absent. -/
structure AffiliateData where
  affiliate_links_count : Option Int := none
  affiliate_domains : Option (List String) := none
  total_links : Option Int := none
  affiliate_ratio : Option ℚ := none

/-- Input dictionary produced by the LLM analysis module; every key may be
absent. -/
structure LlmData where
  disclosure_found : Option Bool := none
  disclosure_location : Option String := none
  content_intent : Option String := none
  confidence_score : Option ℚ := none
  llm_analysis_raw : Option String := none

/-- Result dictionary of `calculate_trust_score`. -/
structure TrustResult where
  trust_score : String
  reasons : List String
  final_analysis : String
  deriving DecidableEq

/-- `str(int)` rendering used by the f-strings of the aggregator. -/
def intRepr (i : Int) : String := toString i

/-- Python's `f"{confidence:.1%}"`: the value times 100, rendered with one
digit after the decimal point and a percent sign.  Python rounds on the
binary float representation (round-half-even); the embedding rounds
half-up on the exact rational, which agrees except on exact .05% ties. -/
def formatPct (q : ℚ) : String :=
  let n : Int := round (q * 1000)
  let sign := if n < 0 then "-" else ""
  let m := n.natAbs
  sign ++ toString (m / 10) ++ "." ++ toString (m % 10) ++ "%"

/-- `score_aggregator._generate_final_analysis`: composes the summary text
from both data sources, the verdict and the matched reasons. -/
def _generate_final_analysis (affiliate_data : AffiliateData) (llm_data : LlmData)
    (score : String) (reasons : List String) : String :=
  let affiliate_count := affiliate_data.affiliate_links_count.getD 0
  let disclosure_found := llm_data.disclosure_found.getD false
  let disclosure_location := llm_data.disclosure_location.getD "nowhere"
  let content_intent := llm_data.content_intent.getD "informative"
  let confidence := llm_data.confidence_score.getD 0
  let parts₁ : List String :=
    ["Trust Score: " ++ score.toUpper, "Primary Factors:"]
      ++ reasons.map (fun reason => "  - " ++ reason)
      ++ ["\nAffiliate Analysis:", "  - Affiliate Links: " ++ intRepr affiliate_count]
  let domains := (affiliate_data.affiliate_domains.getD [])
  let parts₂ : List String :=
    if affiliate_count > 0 ∧ domains ≠ [] then
      ["  - Affiliate Domains: " ++ String.intercalate ", " (domains.take 3)
        ++ (if domains.length > 3 then "..." else "")]
    else []
  let parts₃ : List String :=
    ["\nDisclosure Analysis:",
     "  - Disclosure Found: " ++ (if disclosure_found then "Yes" else "No")]
      ++ (if disclosure_found then ["  - Disclosure Location: " ++ disclosure_location] else [])
      ++ ["  - Content Intent: " ++ content_intent,
          "  - Analysis Confidence: " ++ formatPct confidence]
  let llm_raw := llm_data.llm_analysis_raw.getD ""
  let parts₄ : List String :=
    if llm_raw ≠ "" ∧ llm_raw.length < 500 then ["\nLLM Insights: " ++ llm_raw] else []
  String.intercalate "\n" (parts₁ ++ parts₂ ++ parts₃ ++ parts₄)

/-- The `red_conditions` list built by `calculate_trust_score` (lines
44-56 of `score_aggregator.py`): all matching red conditions are
collected, in source order. -/
def red_conditions (affiliate_count : Int) (disclosure_found : Bool)
    (content_intent : String) : List String :=
  (if affiliate_count > 3 ∧ disclosure_found = false then
    ["High number of affiliate links (" ++ intRepr affiliate_count ++ ") with no disclosure"]
   else [])
  ++ (if content_intent = "persuasive" ∧ disclosure_found = false then
    ["Persuasive sales content with no disclosure"]
   else [])
  ++ (if affiliate_count > 5 then
    ["Very high number of affiliate links (" ++ intRepr affiliate_count ++ ")"]
   else [])

/-- The `yellow_conditions` list built by `calculate_trust_score` (lines
66-79 of `score_aggregator.py`). -/
def yellow_conditions (affiliate_count : Int) (disclosure_found : Bool)
    (disclosure_location : String) (content_intent : String) : List String :=
  (if 1 ≤ affiliate_count ∧ affiliate_count ≤ 3 ∧ disclosure_found = false then
    ["Medium affiliate links (" ++ intRepr affiliate_count ++ ") with no disclosure"]
   else [])
  ++ (if content_intent = "mixed" ∧ disclosure_found = false then
    ["Mixed content intent with no disclosure"]
   else [])
  ++ (if affiliate_count > 0 ∧ disclosure_found = true
        ∧ (disclosure_location = "middle" ∨ disclosure_location = "end") then
    ["Affiliate links with disclosure at " ++ disclosure_location ++ " (not beginning)"]
   else [])

/-- The `green_conditions` list built by `calculate_trust_score` (lines
89-98 of `score_aggregator.py`), before the fallback reason is added. -/
def green_conditions (affiliate_count : Int) (disclosure_found : Bool)
    (disclosure_location : String) : List String :=
  (if affiliate_count = 0 then ["No affiliate links detected"] else [])
  ++ (if disclosure_found = true ∧ disclosure_location = "beginning" then
    ["Clear disclosure at beginning with " ++ intRepr affiliate_count ++ " affiliate links"]
   else [])

/-- `score_aggregator.calculate_trust_score`: rule-based aggregation of the
affiliate scan and the LLM assessment into a red/yellow/green verdict with
human-readable reasons.  The red tier is checked and returned first, then
yellow, and green is the default, with a fallback reason when no specific
green condition matched. -/
def calculate_trust_score (affiliate_data : AffiliateData) (llm_data : LlmData) : TrustResult :=
  let affiliate_count := affiliate_data.affiliate_links_count.getD 0
  let disclosure_found := llm_data.disclosure_found.getD false
  let disclosure_location := llm_data.disclosure_location.getD "nowhere"
  let content_intent := llm_data.content_intent.getD "informative"
  let rc := red_conditions affiliate_count disclosure_found content_intent
  if rc ≠ [] then
    { trust_score := "red", reasons := rc,
      final_analysis := _generate_final_analysis affiliate_data llm_data "red" rc }
  else
    let yc := yellow_conditions affiliate_count disclosure_found disclosure_location content_intent
    if yc ≠ [] then
      { trust_score := "yellow", reasons := yc,
        final_analysis := _generate_final_analysis affiliate_data llm_data "yellow" yc }
    else
      let gc0 := green_conditions affiliate_count disclosure_found disclosure_location
      let gc := if gc0 = [] then ["Minimal risk factors detected"] else gc0
      { trust_score := "green", reasons := gc,
        final_analysis := _generate_final_analysis affiliate_data llm_data "green" gc }

end TruthSignal

namespace TruthSignal

/-! ### Claims about the Trust Score Aggregator -/

/-- **C1.** For every input, if the affiliate count exceeds 5 then
`calculate_trust_score` returns the verdict `red`, regardless of
`disclosureFound`, `disclosureLocation` and `contentIntent`: the count>5
rule is unconditional, and the red tier is evaluated and returned before
the yellow and green tiers. -/
theorem trust_score_red_of_count_gt_five
    (affiliate_data : AffiliateData) (llm_data : LlmData)
    (h : 5 < affiliate_data.affiliate_links_count.getD 0) :
    (calculate_trust_score affiliate_data llm_data).trust_score = "red" := by
  simp [calculate_trust_score, red_conditions, h]

/-- Witness for C1: six affiliate links with a clear disclosure at the
beginning still yield a red verdict. -/
theorem trust_score_red_of_count_gt_five_witness :
    (5 : Int) < (({ affiliate_links_count := some 6 } : AffiliateData).affiliate_links_count.getD 0)
      ∧ (calculate_trust_score { affiliate_links_count := some 6 }
          { disclosure_found := some true, disclosure_location := some "beginning" }).trust_score
        = "red" :=
  ⟨by decide,
   trust_score_red_of_count_gt_five { affiliate_links_count := some 6 }
     { disclosure_found := some true, disclosure_location := some "beginning" } (by decide)⟩

/-- **C8.** The Trust Score Aggregator is total and never fails: for every
pair of input dictionaries with the declared field types,
`calculate_trust_score` returns a verdict whose `trust_score` is one of
red, yellow, green, and whose `reasons` list is non-empty (the fallback
reason "Minimal risk factors detected" is supplied when no specific
condition matched).  Totality is intrinsic to the embedding: the function
is a total Lean definition over the full input domain. -/
theorem trust_score_total
    (affiliate_data : AffiliateData) (llm_data : LlmData) :
    ((calculate_trust_score affiliate_data llm_data).trust_score = "red"
      ∨ (calculate_trust_score affiliate_data llm_data).trust_score = "yellow"
      ∨ (calculate_trust_score affiliate_data llm_data).trust_score = "green")
    ∧ (calculate_trust_score affiliate_data llm_data).reasons ≠ [] := by
  unfold calculate_trust_score
  rcases ne_or_eq
      (red_conditions (affiliate_data.affiliate_links_count.getD 0)
        (llm_data.disclosure_found.getD false) (llm_data.content_intent.getD "informative")) []
    with hr | hr
  · simp [hr]
  · rw [if_neg (by simp [hr])]
    rcases ne_or_eq
        (yellow_conditions (affiliate_data.affiliate_links_count.getD 0)
          (llm_data.disclosure_found.getD false) (llm_data.disclosure_location.getD "nowhere")
          (llm_data.content_intent.getD "informative")) []
      with hy | hy
    · simp [hy]
    · rw [if_neg (by simp [hy])]
      rcases eq_or_ne
          (green_conditions (affiliate_data.affiliate_links_count.getD 0)
            (llm_data.disclosure_found.getD false) (llm_data.disclosure_location.getD "nowhere")) []
        with hg | hg
      · simp [hg]
      · simp [if_neg hg, hg]

/-- **C9.** `calculate_trust_score` reads its inputs only via `.get` with
safe defaults (count 0, disclosure `false`, location `"nowhere"`, intent
`"informative"`); consequently calling it with two empty dictionaries —
or with error-only dictionaries containing none of the expected keys, as
the orchestrator in `main.py` does after a module failure — returns the
green verdict with the reason "No affiliate links detected". -/
theorem trust_score_green_on_missing_keys
    (affiliate_data : AffiliateData) (llm_data : LlmData)
    (h₁ : affiliate_data.affiliate_links_count = none)
    (h₂ : llm_data.disclosure_found = none)
    (h₃ : llm_data.disclosure_location = none)
    (h₄ : llm_data.content_intent = none) :
    (calculate_trust_score affiliate_data llm_data).trust_score = "green"
      ∧ (calculate_trust_score affiliate_data llm_data).reasons
        = ["No affiliate links detected"] := by
  unfold calculate_trust_score
  rw [h₁, h₂, h₃, h₄]
  norm_num [red_conditions, yellow_conditions, green_conditions]
  simp +decide

/-- Witness for C9: two empty dictionaries yield green with the single
reason "No affiliate links detected". -/
theorem trust_score_green_on_missing_keys_witness :
    (calculate_trust_score {} {}).trust_score = "green"
      ∧ (calculate_trust_score {} {}).reasons = ["No affiliate links detected"] :=
  trust_score_green_on_missing_keys {} {} rfl rfl rfl rfl

/-! ## A small regular-expression engine

The affiliate scanner classifies URLs with `re.Pattern.search`.  The
compiled patterns are embedded as regular-expression syntax trees and
matched with Brzozowski derivatives; `reSearch` is `re.search` as a
Boolean (does the pattern match anywhere in the string?).  The source's
patterns use only literals, `(?:...|...)` groups, character classes,
`?`, `*` and `+`, all of which translate directly.  Ordered alternation
and greediness affect which substring Python reports, not whether a
match exists, so the language-level semantics below coincide with
`re.search` used as a truth value. -/

/-- Regular expressions over characters: empty language, empty string,
character class, concatenation, alternation, Kleene star. -/
inductive RE where
  | void
  | eps
  | cls (p : Char → Bool)
  | seq (a b : RE)
  | alt (a b : RE)
  | star (r : RE)

/-- Does the regular expression accept the empty string? -/
def nullable : RE → Bool
  | .void => false
  | .eps => true
  | .cls _ => false
  | .seq a b => nullable a && nullable b
  | .alt a b => nullable a || nullable b
  | .star _ => true

/-- Smart concatenation constructor (prunes `void` and `eps`), preserving
the denoted language. -/
def seqS : RE → RE → RE
  | .void, _ => .void
  | .eps, b => b
  | _, .void => .void
  | a, .eps => a
  | a, b => .seq a b

/-- Smart alternation constructor (prunes `void`), preserving the denoted
language. -/
def altS : RE → RE → RE
  | .void, b => b
  | a, .void => a
  | a, b => .alt a b

/-- Brzozowski derivative of a regular expression by a character. -/
def deriv (c : Char) : RE → RE
  | .void => .void
  | .eps => .void
  | .cls p => if p c then .eps else .void
  | .seq a b =>
      if nullable a then altS (seqS (deriv c a) b) (deriv c b)
      else seqS (deriv c a) b
  | .alt a b => altS (deriv c a) (deriv c b)
  | .star r => seqS (deriv c r) (.star r)

/-- Does the regular expression match some (possibly empty) prefix of the
string?  (`void` is short-circuited: its derivative chain never
matches.) -/
def matchesHere : RE → List Char → Bool
  | r, [] => nullable r
  | .void, _ :: _ => false
  | r, c :: rest => nullable r || matchesHere (deriv c r) rest

/-- `re.search` as a Boolean: does the pattern match starting at some
position of the string? -/
def reSearch (r : RE) : List Char → Bool
  | [] => nullable r
  | c :: rest => matchesHere r (c :: rest) || reSearch r rest

/-- A single literal character. -/
def lit (c : Char) : RE := .cls (fun x => x == c)

/-- A single literal character under `re.IGNORECASE`. -/
def litCI (c : Char) : RE := .cls (fun x => x.toLower == c.toLower)

/-- Concatenation of a list of regular expressions. -/
def reCat (l : List RE) : RE := l.foldr seqS .eps

/-- Alternation of a list of regular expressions
(`(?:x|y|...)`; unordered union of the languages). -/
def reAlts (l : List RE) : RE := l.foldr altS .void

/-- A literal string under `re.IGNORECASE`. -/
def reStrCI (s : String) : RE := reCat (s.toList.map litCI)

/-- `r?`. -/
def reOpt (r : RE) : RE := altS r .eps

/-- `r+`. -/
def rePlus (r : RE) : RE := seqS r (.star r)

/-- `r*`. -/
def reStar (r : RE) : RE := .star r

/-- The double-quote character (escaped in the Python patterns as `\"`). -/
def dquote : Char := Char.ofNat 34

/-- The single-quote character. -/
def squote : Char := Char.ofNat 39

/-- The character class `[^"\']` used throughout the patterns. -/
def notQuoteC (c : Char) : Bool := !(c == dquote || c == squote)

/-- `[^"\']*`. -/
def clsNotQuote : RE := reStar (.cls notQuoteC)

/-- `[?&]`. -/
def clsQueryAmp : RE := .cls (fun c => c == '?' || c == '&')

/-- `[a-zA-Z0-9_-]+` (the affiliate-tag character class). -/
def rePlusTagChar : RE := rePlus (.cls (fun c => c.isAlphanum || c == '_' || c == '-'))

/-- `[0-9]+`. -/
def rePlusDigit : RE := rePlus (.cls Char.isDigit)

/-- `[a-zA-Z]+`. -/
def rePlusAlpha : RE := rePlus (.cls Char.isAlpha)

/-- `[\w/\.-]+` (the CJ Affiliate path class; `\w` is `[a-zA-Z0-9_]` for
the ASCII inputs considered here). -/
def rePlusPathChar : RE :=
  rePlus (.cls (fun c => c.isAlphanum || c == '_' || c == '/' || c == '.' || c == '-'))

/-- `https?://`. -/
def reHttp : RE := reCat [reStrCI "http", reOpt (litCI 's'), reStrCI "://"]

/-- `(?:www\.)?`. -/
def reOptWww : RE := reOpt (reStrCI "www.")

/-! ## affiliate_scanner.py — the v1 detector

All string processing happens at character level (`List Char`), matching
Python's per-code-point string semantics. -/

namespace AffiliateScanner

/-- One entry of the `all_affiliate_links` list: the dictionary
`{network, display_name, url}` returned by `_is_affiliate_link`. -/
structure AffiliateMatch where
  network : String
  display_name : String
  url : List Char
  deriving DecidableEq

/-- The result dictionary of `AffiliateScanner.find_affiliate_links`. -/
structure ScanResult where
  affiliate_links_found : Bool
  affiliate_networks : List String
  total_affiliate_links : Nat
  unique_affiliate_links : Nat
  details : List (List Char)
  all_affiliate_links : List AffiliateMatch
  deriving DecidableEq

/-- `_compile_amazon_patterns` (lines 36-53): the four Amazon Associates
patterns, in declaration order. -/
def amazonPatterns : List RE :=
  [ -- tag parameter in query string
    reCat [reHttp, reOptWww, reStrCI "amazon.",
      reAlts (["com", "co.uk", "ca", "de", "fr", "it", "es", "co.jp", "cn", "in"].map reStrCI),
      lit '/', clsNotQuote, clsQueryAmp,
      altS (reStrCI "tag") (reStrCI "associate-tag"), lit '=', rePlusTagChar],
    -- gp/product with affiliate structure
    reCat [reHttp, reOptWww, reStrCI "amazon.",
      reAlts (["com", "co.uk", "ca", "de", "fr", "it", "es", "co.jp", "cn"].map reStrCI),
      reStrCI "/gp/product/", clsNotQuote, reStrCI "/ref=", clsNotQuote,
      lit '?', clsNotQuote, reStrCI "tag=", rePlusTagChar],
    -- dp with affiliate structure
    reCat [reHttp, reOptWww, reStrCI "amazon.",
      reAlts (["com", "co.uk", "ca", "de", "fr", "it", "es", "co.jp", "cn"].map reStrCI),
      lit '/', clsNotQuote, reStrCI "/dp/", clsNotQuote, reStrCI "/ref=", clsNotQuote,
      lit '?', clsNotQuote, reStrCI "tag=", rePlusTagChar],
    -- amzn.to short links
    reCat [reStrCI "http", reOpt (litCI 's'), reStrCI "://amzn.to/",
      rePlus (.cls Char.isAlphanum)] ]

/-- `_compile_shareasale_patterns` (lines 55-64): the three ShareASale
patterns, in declaration order. -/
def shareasalePatterns : List RE :=
  [ -- shareasale.com with r parameter
    reCat [reHttp, reOptWww, reStrCI "shareasale.com/", clsNotQuote, clsQueryAmp,
      reStrCI "r=", rePlusDigit],
    -- shareasale.com with merchant ID patterns
    reCat [reHttp, reOptWww, reStrCI "shareasale.com/r.cfm?", clsNotQuote,
      altS (reStrCI "merchantID") (reStrCI "m"), lit '=', rePlusDigit],
    -- shareasale.com affiliate links
    reCat [reHttp, reOptWww, reStrCI "shareasale.com/", clsNotQuote, lit '?',
      reStar (reCat [clsNotQuote, lit '&']), rePlusAlpha, lit '=', rePlusDigit] ]

/-- `_compile_cj_affiliate_patterns` (lines 66-83): one pattern per known
CJ Affiliate domain, in declaration order. -/
def cjAffiliatePatterns : List RE :=
  ["anrdoezrs.net", "dpbolvw.net", "tkqlhce.com", "jdoqocy.com", "kqzyfj.com"].map
    (fun domain => reCat [reHttp, reOptWww, reStrCI domain, lit '/', rePlusPathChar])

/-- `self.patterns` (lines 23-27): the network pattern table in insertion
order, paired with `self.network_names` (lines 30-34). -/
def networkTable : List (String × String × List RE) :=
  [("amazon", "Amazon Associates", amazonPatterns),
   ("shareasale", "ShareASale", shareasalePatterns),
   ("cj_affiliate", "CJ Affiliate", cjAffiliatePatterns)]

/-- Python `str.strip()` whitespace (the ASCII whitespace characters;
the inputs considered here contain no Unicode spaces). -/
def isPySpace (c : Char) : Bool :=
  c == ' ' || c == '\t' || c == '\n' || c == Char.ofNat 13
    || c == Char.ofNat 11 || c == Char.ofNat 12

/-- Python `str.strip()`: remove leading and trailing whitespace. -/
def pyStrip (l : List Char) : List Char :=
  ((l.dropWhile isPySpace).reverse.dropWhile isPySpace).reverse

/-- `AffiliateScanner._is_affiliate_link` (lines 104-126): normalize the
URL by stripping whitespace, then test the networks in table order and,
within a network, the patterns in declaration order; the first match
wins and is attributed to that network. -/
def _is_affiliate_link (url : List Char) : Option AffiliateMatch :=
  let normalized_url := pyStrip url
  networkTable.findSome? fun entry =>
    if (entry.2.2).any (fun pattern => reSearch pattern normalized_url) then
      some ⟨entry.1, entry.2.1, normalized_url⟩
    else none

/-- Case-insensitive match of a literal key (e.g. `href="` up to the `=`)
at the head of the input; returns the rest of the input on success.
Models the literal part of the pattern `href=['"]([^'"]+)['"]` under
`re.IGNORECASE`. -/
def matchKeyAt : List Char → List Char → Option (List Char)
  | [], l => some l
  | _ :: _, [] => none
  | k :: ks, c :: cs => if c.toLower == k then matchKeyAt ks cs else none

/-- One attempt of the attribute pattern `key['"]([^'"]+)['"]` at the
current position: on success, returns the captured group and the input
remaining after the closing quote (where `re.findall` resumes). -/
def matchAttrAt (key : List Char) (l : List Char) : Option (List Char × List Char) :=
  match matchKeyAt key l with
  | none => none
  | some [] => none
  | some (q :: rest2) =>
    if (q == dquote || q == squote) && !(rest2.takeWhile notQuoteC).isEmpty then
      match rest2.dropWhile notQuoteC with
      | [] => none
      | _ :: after => some (rest2.takeWhile notQuoteC, after)
    else none

theorem matchKeyAt_length {key l rest : List Char}
    (h : matchKeyAt key l = some rest) : rest.length ≤ l.length := by
  induction key generalizing l with
  | nil => simp [matchKeyAt] at h; simp [h]
  | cons k ks ih =>
    cases l with
    | nil => simp [matchKeyAt] at h
    | cons c cs =>
      simp only [matchKeyAt] at h
      split at h
      · exact le_trans (ih h) (Nat.le_succ _)
      · exact absurd h (by simp)

theorem matchAttrAt_length {key l : List Char} {pr : List Char × List Char}
    (h : matchAttrAt key l = some pr) : pr.2.length < l.length := by
  obtain ⟨cap, after⟩ := pr
  show after.length < l.length
  unfold matchAttrAt at h
  split at h
  · simp at h
  · simp at h
  · next q rest2 heq =>
    have hrl := matchKeyAt_length heq
    split at h
    · split at h
      · simp at h
      · next x after' hd =>
        simp only [Option.some.injEq, Prod.mk.injEq] at h
        have h2 : (x :: after').length ≤ rest2.length := by
          rw [← hd]; exact (List.dropWhile_sublist notQuoteC).length_le
        have h4 : after = after' := h.2.symm
        rw [h4]
        simp only [List.length_cons] at *
        omega
    · simp at h

/-- The scan loop of `re.findall` for the attribute pattern, with a fuel
parameter for structural (kernel-computable) recursion: try the pattern
at every position, emit the captured group on a match and resume after
the match, otherwise advance one character.  Each step consumes one fuel
unit and strictly shortens the input, so any fuel of at least the input
length is sufficient (`findAttrAux_fuel`). -/
def findAttrAux (key : List Char) : Nat → List Char → List (List Char)
  | _, [] => []
  | 0, _ :: _ => []
  | fuel + 1, c :: rest =>
    match matchAttrAt key (c :: rest) with
    | some capAfter => capAfter.1 :: findAttrAux key fuel capAfter.2
    | none => findAttrAux key fuel rest

/-- `re.findall(pattern, html)` for the attribute patterns. -/
def findAttrMatches (key : List Char) (l : List Char) : List (List Char) :=
  findAttrAux key l.length l

/-- Any two sufficient fuels give the same scan result. -/
theorem findAttrAux_fuel (key : List Char) :
    ∀ (f₁ f₂ : Nat) (l : List Char), l.length ≤ f₁ → l.length ≤ f₂ →
      findAttrAux key f₁ l = findAttrAux key f₂ l := by
  intro f₁
  induction f₁ with
  | zero =>
    intro f₂ l h₁ _
    have : l = [] := List.length_eq_zero.mp (Nat.le_zero.mp h₁)
    subst this
    cases f₂ <;> rfl
  | succ a ih =>
    intro f₂ l h₁ h₂
    cases l with
    | nil => cases f₂ <;> rfl
    | cons c rest =>
      cases f₂ with
      | zero => simp at h₂
      | succ b =>
        simp only [findAttrAux]
        cases hm : matchAttrAt key (c :: rest) with
        | some capAfter =>
          have hlt := matchAttrAt_length hm
          simp only [List.length_cons] at h₁ h₂ hlt
          exact congrArg (capAfter.1 :: ·) (ih b capAfter.2 (by omega) (by omega))
        | none =>
          simp only [List.length_cons] at h₁ h₂
          exact ih b rest (by omega) (by omega)

theorem findAttrMatches_nil (key : List Char) : findAttrMatches key [] = [] := rfl

/-- The fuel-free step equation of the `findall` scan. -/
theorem findAttrMatches_cons (key : List Char) (c : Char) (rest : List Char) :
    findAttrMatches key (c :: rest) =
      match matchAttrAt key (c :: rest) with
      | some capAfter => capAfter.1 :: findAttrMatches key capAfter.2
      | none => findAttrMatches key rest := by
  show findAttrAux key (rest.length + 1) (c :: rest) = _
  simp only [findAttrAux]
  cases hm : matchAttrAt key (c :: rest) with
  | some capAfter =>
    have hlt := matchAttrAt_length hm
    simp only [List.length_cons] at hlt
    exact congrArg (capAfter.1 :: ·)
      (findAttrAux_fuel key rest.length capAfter.2.length capAfter.2 (by omega) le_rfl)
  | none => rfl

/-- `list(set(...))`: deduplication by string equality.  Python's set
iteration order is unspecified; the embedding keeps the first occurrence
of each element, which fixes one admissible order (no claim depends on
the order, only on the underlying set and its size). -/
def dedupFirst (l : List (List Char)) : List (List Char) :=
  l.foldl (fun acc x => if acc.contains x then acc else acc ++ [x]) []

/-- The literal part of the pattern `href=['"]([^'"]+)['"]` (line 91). -/
def hrefKey : List Char := ['h', 'r', 'e', 'f', '=']

/-- The literal part of the pattern `src=['"]([^'"]+)['"]` (line 95). -/
def srcKey : List Char := ['s', 'r', 'c', '=']

/-- `_extract_links_from_html` (lines 85-102): `findall` of the `href`
pattern, then of the `src` pattern, concatenated and deduplicated. -/
def _extract_links_from_html (html_content : List Char) : List (List Char) :=
  dedupFirst (findAttrMatches hrefKey html_content
    ++ findAttrMatches srcKey html_content)

/-- `_get_unique_links` (lines 176-178): the set of matched URLs (kept as
a first-occurrence-ordered list, see `dedupFirst`). -/
def _get_unique_links (affiliate_links : List AffiliateMatch) : List (List Char) :=
  dedupFirst (affiliate_links.map (·.url))

/-- The `"..."` suffix appended to truncated sample URLs. -/
def ellipsisChars : List Char := ['.', '.', '.']

/-- `_get_sample_urls` (lines 180-192): up to `max_samples = 5` URLs from
the unique set, each truncated to its first 100 characters plus `"..."`
when longer than 100 characters. -/
def _get_sample_urls (unique_links : List (List Char)) : List (List Char) :=
  (unique_links.take 5).map fun url =>
    if url.length > 100 then url.take 100 ++ ellipsisChars else url

/-- `_empty_result` (lines 194-203): the canonical zero-valued result. -/
def _empty_result : ScanResult :=
  { affiliate_links_found := false, affiliate_networks := [],
    total_affiliate_links := 0, unique_affiliate_links := 0,
    details := [], all_affiliate_links := [] }

/-- A Python value passed as `html_content`: `None`, a string, or a
non-string value (only its truthiness and type matter to the scanner). -/
inductive PyInput where
  | pyNone
  | pyStr (s : List Char)
  | pyNonStr
  deriving DecidableEq

/-- `AffiliateScanner.find_affiliate_links` (lines 128-174): the main
scanner entry point.  The guard `not html_content or not
isinstance(html_content, str)` (line 139) rejects `None`, non-strings and
the falsy empty string.  The `try/except` wrapper of the source cannot
fire in the embedding — every operation involved is total on strings —
so the `_error_result` branch is unreachable and not modelled.  Python's
`set` iteration order for `detected_networks` is unspecified; the
embedding uses `List.dedup` (one admissible order). -/
def find_affiliate_links (html_content : PyInput) : ScanResult :=
  match html_content with
  | .pyNone => _empty_result
  | .pyNonStr => _empty_result
  | .pyStr s =>
    if s.isEmpty then _empty_result
    else if (_extract_links_from_html s).isEmpty then _empty_result
    else
      let affiliate_links := (_extract_links_from_html s).filterMap _is_affiliate_link
      { affiliate_links_found := affiliate_links.length > 0,
        affiliate_networks := ((affiliate_links.map (·.network)).dedup).map fun net =>
          (((networkTable.find? (fun e => e.1 == net)).map (·.2.1)).getD ""),
        total_affiliate_links := affiliate_links.length,
        unique_affiliate_links := (_get_unique_links affiliate_links).length,
        details := _get_sample_urls (_get_unique_links affiliate_links),
        all_affiliate_links := affiliate_links }

theorem dedupFirst_aux {x : List Char} :
    ∀ (l acc : List (List Char)),
      x ∈ l.foldl (fun acc y => if acc.contains y then acc else acc ++ [y]) acc →
      x ∈ acc ∨ x ∈ l := by
  intro l
  induction l with
  | nil => intro acc h; exact Or.inl h
  | cons y ys ih =>
    intro acc h
    rcases ih (if acc.contains y then acc else acc ++ [y]) h with hacc | hys
    · by_cases hc : acc.contains y
      · rw [if_pos hc] at hacc; exact Or.inl hacc
      · rw [if_neg hc] at hacc
        rcases List.mem_append.mp hacc with h1 | h2
        · exact Or.inl h1
        · simp only [List.mem_singleton] at h2
          exact Or.inr (h2 ▸ List.mem_cons_self y ys)
    · exact Or.inr (List.mem_cons_of_mem _ hys)

/-- Everything in the deduplicated list occurs in the original list. -/
theorem dedupFirst_subset {x : List Char} {l : List (List Char)}
    (h : x ∈ dedupFirst l) : x ∈ l := by
  rcases dedupFirst_aux l [] h with h0 | h1
  · simp at h0
  · exact h1

/-- Behaviour of `_get_sample_urls` on any list: at most five entries,
each one either an untruncated unique URL of at most 100 characters or a
100-character prefix with the 3-character ellipsis suffix. -/
theorem _get_sample_urls_spec (links : List (List Char)) :
    (_get_sample_urls links).length ≤ 5
    ∧ ∀ d ∈ _get_sample_urls links,
        d.length ≤ 103
        ∧ ∃ u ∈ links, d = if u.length > 100 then u.take 100 ++ ellipsisChars else u := by
  constructor
  · simp only [_get_sample_urls, List.length_map, List.length_take]
    omega
  · intro d hd
    simp only [_get_sample_urls, List.mem_map] at hd
    obtain ⟨u, hu, hdu⟩ := hd
    have hu' : u ∈ links := List.take_subset 5 links hu
    constructor
    · rw [← hdu]
      by_cases hlen : u.length > 100
      · rw [if_pos hlen]
        simp only [List.length_append, List.length_take, ellipsisChars, List.length_cons,
          List.length_nil]
        omega
      · rw [if_neg hlen]; omega
    · exact ⟨u, hu', hdu.symm⟩

/-- The canonical empty result satisfies all `ScanResult` invariants. -/
theorem empty_result_invariants :
    (_empty_result.affiliate_links_found = true ↔ 0 < _empty_result.total_affiliate_links)
    ∧ _empty_result.details.length ≤ 5
    ∧ ∀ d ∈ _empty_result.details,
        d.length ≤ 103
        ∧ ∃ m ∈ _empty_result.all_affiliate_links,
            d = if m.url.length > 100 then m.url.take 100 ++ ellipsisChars else m.url := by
  refine ⟨by simp [_empty_result], by simp [_empty_result], ?_⟩
  intro d hd
  simp [_empty_result] at hd

/-- **C2.** For every input to the affiliate detector, the returned
`ScanResult` satisfies `found == (totalMatches > 0)`, the sample-URL list
(`details`) has at most 5 entries, and every entry has length at most 103
characters: an entry is either a matched URL of at most 100 characters,
or a URL longer than 100 characters truncated to its first 100 characters
plus the ellipsis suffix `"..."`. -/
theorem scan_result_invariants (input : PyInput) :
    ((find_affiliate_links input).affiliate_links_found = true
      ↔ 0 < (find_affiliate_links input).total_affiliate_links)
    ∧ (find_affiliate_links input).details.length ≤ 5
    ∧ ∀ d ∈ (find_affiliate_links input).details,
        d.length ≤ 103
        ∧ ∃ m ∈ (find_affiliate_links input).all_affiliate_links,
            d = if m.url.length > 100 then m.url.take 100 ++ ellipsisChars else m.url := by
  cases input with
  | pyNone => exact empty_result_invariants
  | pyNonStr => exact empty_result_invariants
  | pyStr s =>
    simp only [find_affiliate_links]
    split
    · exact empty_result_invariants
    · split
      · exact empty_result_invariants
      · refine ⟨by simp, (_get_sample_urls_spec _).1, ?_⟩
        intro d hd
        obtain ⟨hlen, u, hu, hdu⟩ := (_get_sample_urls_spec _).2 d hd
        refine ⟨hlen, ?_⟩
        obtain ⟨m, hm, hmu⟩ :=
          List.mem_map.mp (dedupFirst_subset (l := _) hu)
        exact ⟨m, hm, by rw [hdu, ← hmu]⟩

/-- A document whose single affiliate link (an `amzn.to` short link padded
to 136 characters) is longer than 100 characters, so its sample entry is
truncated. -/
def demoHtmlLong : List Char :=
  ("<a href=\x22https://amzn.to/" ++ String.mk (List.replicate 120 'a') ++ "\x22>x</a>").toList

set_option maxRecDepth 40000 in
/-- Witness for C2: on `demoHtmlLong` the first sample entry is at most
103 characters long and is the 100-character truncation (plus ellipsis)
of a matched URL. -/
theorem scan_result_invariants_witness :
    (find_affiliate_links (.pyStr demoHtmlLong)).details.headI.length ≤ 103
    ∧ ∃ m ∈ (find_affiliate_links (.pyStr demoHtmlLong)).all_affiliate_links,
        (find_affiliate_links (.pyStr demoHtmlLong)).details.headI
          = if m.url.length > 100 then m.url.take 100 ++ ellipsisChars else m.url :=
  (scan_result_invariants (.pyStr demoHtmlLong)).2.2 _ (by decide)

/-- **C4.** The detector entry point `find_affiliate_links` is total
(never raises: in the embedding every branch is a total function, the
source's blanket `except` being unreachable), and on empty-string, `None`
or non-string input — and on whitespace-only strings, where extraction
finds no candidates — it returns the canonical empty `ScanResult` with
`found == false` and all counts 0. -/
theorem find_affiliate_links_degenerate_inputs (input : PyInput)
    (h : input = .pyNone ∨ input = .pyNonStr ∨ input = .pyStr []
      ∨ ∃ s, input = .pyStr s ∧ ∀ c ∈ s, isPySpace c = true) :
    find_affiliate_links input = _empty_result
      ∧ (find_affiliate_links input).affiliate_links_found = false
      ∧ (find_affiliate_links input).total_affiliate_links = 0
      ∧ (find_affiliate_links input).unique_affiliate_links = 0 := by
  have hmain : find_affiliate_links input = _empty_result := by
    rcases h with h | h | h | ⟨s, h, hs⟩
    · rw [h]; rfl
    · rw [h]; rfl
    · rw [h]; rfl
    · rw [h]
      have hnoattr : ∀ (kh : Char) (kt : List Char),
          (∀ d, isPySpace d = true → (d.toLower == kh) = false) →
          ∀ t, (∀ c ∈ t, isPySpace c = true) → findAttrMatches (kh :: kt) t = [] := by
        intro kh kt hk t
        induction t with
        | nil => intro _; rfl
        | cons c rest ih =>
          intro hct
          rw [findAttrMatches_cons]
          have hnone : matchAttrAt (kh :: kt) (c :: rest) = none := by
            simp [matchAttrAt, matchKeyAt, hk c (hct c (List.mem_cons_self c rest))]
          rw [hnone]
          exact ih fun c hc => hct c (List.mem_cons_of_mem _ hc)
      have hspace_h : ∀ d, isPySpace d = true → (d.toLower == 'h') = false := by
        intro d hd
        simp only [isPySpace, Bool.or_eq_true, beq_iff_eq] at hd
        rcases hd with ((((h1 | h1) | h1) | h1) | h1) | h1 <;> subst h1 <;> decide
      have hspace_s : ∀ d, isPySpace d = true → (d.toLower == 's') = false := by
        intro d hd
        simp only [isPySpace, Bool.or_eq_true, beq_iff_eq] at hd
        rcases hd with ((((h1 | h1) | h1) | h1) | h1) | h1 <;> subst h1 <;> decide
      have hext : _extract_links_from_html s = [] := by
        show dedupFirst _ = []
        rw [show hrefKey = 'h' :: ['r', 'e', 'f', '='] from rfl,
          show srcKey = 's' :: ['r', 'c', '='] from rfl,
          hnoattr 'h' ['r', 'e', 'f', '='] hspace_h s hs,
          hnoattr 's' ['r', 'c', '='] hspace_s s hs]
        rfl
      simp only [find_affiliate_links]
      rcases hse : s.isEmpty with _ | _
      · rw [if_neg (by simp), if_pos (by simp [hext])]
      · rw [if_pos rfl]
  refine ⟨hmain, ?_, ?_, ?_⟩ <;> rw [hmain] <;> rfl

/-- Witness for C4: the empty string, `None`, a non-string value and a
whitespace-only string all map to the canonical empty result. -/
theorem find_affiliate_links_degenerate_inputs_witness :
    find_affiliate_links (.pyStr [' ', ' ', '\n']) = _empty_result
      ∧ find_affiliate_links .pyNone = _empty_result
      ∧ find_affiliate_links .pyNonStr = _empty_result
      ∧ find_affiliate_links (.pyStr []) = _empty_result :=
  ⟨(find_affiliate_links_degenerate_inputs (.pyStr [' ', ' ', '\n'])
      (Or.inr (Or.inr (Or.inr ⟨_, rfl, by decide⟩)))).1,
   (find_affiliate_links_degenerate_inputs .pyNone (Or.inl rfl)).1,
   (find_affiliate_links_degenerate_inputs .pyNonStr (Or.inr (Or.inl rfl))).1,
   (find_affiliate_links_degenerate_inputs (.pyStr []) (Or.inr (Or.inr (Or.inl rfl)))).1⟩

/-! ### Claim C3: repeated occurrences of the same affiliate URL

`_extract_links_from_html` deduplicates the extracted candidates
(`list(set(links + src_links))`, line 98) *before* classification, so a
document containing the same affiliate URL N times produces a single
candidate, a single match, `totalMatches == 1` and `uniqueURLs == 1` —
not `totalMatches == N`. -/

/-- The affiliate URL `https://amzn.to/3xyz123` as characters. -/
def dupUrl : List Char :=
  ['h', 't', 't', 'p', 's', ':', '/', '/', 'a', 'm', 'z', 'n', '.', 't', 'o', '/',
   '3', 'x', 'y', 'z', '1', '2', '3']

/-- One anchor element `<a href="https://amzn.to/3xyz123">x</a>`. -/
def dupChunkChars : List Char :=
  ['<', 'a', ' ', 'h', 'r', 'e', 'f', '=', Char.ofNat 34] ++ dupUrl
    ++ [Char.ofNat 34, '>', 'x', '<', '/', 'a', '>']

theorem dupChunkChars_eq :
    dupChunkChars = "<a href=\x22https://amzn.to/3xyz123\x22>x</a>".toList := rfl

/-- An HTML document consisting of `n` copies of the anchor element, i.e.
the same affiliate URL appears in `n` distinct `href` attributes. -/
def htmlRepeat (n : Nat) : List Char := (List.replicate n dupChunkChars).flatten

/-- Scanning one anchor element followed by anything finds the URL and
resumes cleanly after the element. -/
theorem findAttr_href_chunk (r : List Char) :
    findAttrMatches hrefKey (dupChunkChars ++ r) = dupUrl :: findAttrMatches hrefKey r := by
  simp [dupChunkChars, dupUrl, hrefKey, findAttrMatches_cons, matchAttrAt, matchKeyAt,
    notQuoteC, dquote, squote, List.takeWhile, List.dropWhile]

/-- The anchor element contains no `src=` attribute. -/
theorem findAttr_src_chunk (r : List Char) :
    findAttrMatches srcKey (dupChunkChars ++ r) = findAttrMatches srcKey r := by
  simp [dupChunkChars, dupUrl, srcKey, findAttrMatches_cons, matchAttrAt, matchKeyAt,
    notQuoteC, dquote, squote, List.takeWhile, List.dropWhile]

theorem findAttr_href_htmlRepeat (n : Nat) :
    findAttrMatches hrefKey (htmlRepeat n) = List.replicate n dupUrl := by
  induction n with
  | zero => rfl
  | succ m ih =>
    simp only [htmlRepeat] at ih ⊢
    rw [List.replicate_succ, List.flatten_cons, findAttr_href_chunk, ih, List.replicate_succ]

theorem findAttr_src_htmlRepeat (n : Nat) :
    findAttrMatches srcKey (htmlRepeat n) = [] := by
  induction n with
  | zero => rfl
  | succ m ih =>
    simp only [htmlRepeat] at ih ⊢
    rw [List.replicate_succ, List.flatten_cons, findAttr_src_chunk, ih]

theorem dedupFirst_replicate_aux (u : List Char) :
    ∀ m, List.foldl (fun acc y => if acc.contains y then acc else acc ++ [y])
      [u] (List.replicate m u) = [u] := by
  intro m
  induction m with
  | zero => rfl
  | succ k ih =>
    rw [List.replicate_succ, List.foldl_cons, if_pos (by simp)]
    exact ih

/-- Deduplicating `n ≥ 1` copies of the same URL yields that URL once. -/
theorem dedupFirst_replicate (u : List Char) (m : Nat) :
    dedupFirst (List.replicate (m + 1) u) = [u] := by
  rw [List.replicate_succ]
  show List.foldl _ (if List.contains [] u then [] else [] ++ [u]) (List.replicate m u) = [u]
  rw [if_neg (by simp)]
  exact dedupFirst_replicate_aux u m

/-- The single candidate URL is classified as an Amazon Associates link
(the `amzn.to` pattern, fourth in the Amazon pattern list). -/
theorem dupUrl_classified :
    _is_affiliate_link dupUrl = some ⟨"amazon", "Amazon Associates", dupUrl⟩ := by decide

set_option maxRecDepth 40000 in
/-- **C3 (counterexample).** The claim predicts `totalMatches == N` for a
document repeating the same affiliate URL N times; at N = 2 the scanner
returns `totalMatches == 1` (and `uniqueURLs == 1`), because candidates
are deduplicated by raw string equality before classification. -/
theorem scan_duplicate_url_counterexample :
    (find_affiliate_links (.pyStr (htmlRepeat 2))).total_affiliate_links = 1
    ∧ (find_affiliate_links (.pyStr (htmlRepeat 2))).unique_affiliate_links = 1
    ∧ ¬((find_affiliate_links (.pyStr (htmlRepeat 2))).total_affiliate_links = 2) := by
  decide

/-- **C3 (amended).** For every N ≥ 1, scanning an HTML document in which
the same affiliate URL string appears N times (in N `href` attributes)
yields `totalMatches == 1` and `uniqueURLs == 1`: extraction deduplicates
candidates by raw string equality before classification, so repeated
occurrences never increase either count. -/
theorem scan_duplicate_url_amended (N : Nat) (h : 1 ≤ N) :
    (find_affiliate_links (.pyStr (htmlRepeat N))).total_affiliate_links = 1
    ∧ (find_affiliate_links (.pyStr (htmlRepeat N))).unique_affiliate_links = 1 := by
  obtain ⟨m, rfl⟩ : ∃ m, N = m + 1 := ⟨N - 1, by omega⟩
  have hext : _extract_links_from_html (htmlRepeat (m + 1)) = [dupUrl] := by
    show dedupFirst _ = _
    rw [findAttr_href_htmlRepeat, findAttr_src_htmlRepeat, List.append_nil,
      dedupFirst_replicate]
  have hne : (htmlRepeat (m + 1)).isEmpty = false := by
    simp [htmlRepeat, List.replicate_succ, dupChunkChars]
  simp only [find_affiliate_links]
  rw [if_neg (by simp [hne]), if_neg (by simp [hext])]
  simp [hext, dupUrl_classified, _get_unique_links, dedupFirst]

/-- Witness for C3 (amended): at N = 3 both counts are 1. -/
theorem scan_duplicate_url_amended_witness :
    (find_affiliate_links (.pyStr (htmlRepeat 3))).total_affiliate_links = 1
    ∧ (find_affiliate_links (.pyStr (htmlRepeat 3))).unique_affiliate_links = 1 :=
  scan_duplicate_url_amended 3 (by decide)

end AffiliateScanner

/-! ## affiliate_scanner_v2.py — URL normalization and the extended table

The v2 detector normalizes candidate URLs (`_normalize_url`, lines
213-228) before pattern matching (`_is_affiliate_link`, lines 230-252):
it strips whitespace and decodes the three HTML entities `&amp;`,
`&#38;`, `&#x26;` into `&`, in that order, and does nothing else. -/

namespace AffiliateScannerV2

/-- Python `str.replace(old, new)` for a non-empty `old = p :: ps`:
replace non-overlapping occurrences left to right.  Fuel-based structural
recursion; each step consumes one fuel unit and at least one character,
so fuel `l.length` is sufficient. -/
def pyReplaceAux (p : Char) (ps rep : List Char) : Nat → List Char → List Char
  | _, [] => []
  | 0, l => l
  | fuel + 1, c :: rest =>
    if (c :: rest).take (ps.length + 1) == p :: ps then
      rep ++ pyReplaceAux p ps rep fuel (rest.drop ps.length)
    else c :: pyReplaceAux p ps rep fuel rest

/-- Python `str.replace(old, new)`.  (For the unused empty-`old` case
Python would insert `new` at every position; the three entity strings
replaced by `_normalize_url` are all non-empty.) -/
def pyReplace (old rep l : List Char) : List Char :=
  match old with
  | [] => l
  | p :: ps => pyReplaceAux p ps rep l.length l

/-- Python `old in s` (substring containment) for the entity strings. -/
def occursIn (pat : List Char) : List Char → Bool
  | [] => pat.isEmpty
  | c :: rest => ((c :: rest).take pat.length == pat) || occursIn pat rest

/-- If the pattern occurs nowhere in the string, `replace` is the
identity (any sufficient fuel). -/
theorem pyReplaceAux_id (p : Char) (ps rep : List Char) :
    ∀ (fuel : Nat) (l : List Char), l.length ≤ fuel →
      occursIn (p :: ps) l = false → pyReplaceAux p ps rep fuel l = l := by
  intro fuel
  induction fuel with
  | zero =>
    intro l hl _
    have : l = [] := List.length_eq_zero.mp (Nat.le_zero.mp hl)
    subst this; rfl
  | succ k ih =>
    intro l hl hocc
    cases l with
    | nil => rfl
    | cons c rest =>
      simp only [occursIn, Bool.or_eq_false_iff] at hocc
      simp only [pyReplaceAux, List.length_cons] at *
      rw [hocc.1, if_neg (by simp)]
      exact congrArg (c :: ·) (ih rest (by omega) hocc.2)

theorem pyReplace_id {old rep l : List Char}
    (hocc : occursIn old l = false) (hne : old ≠ []) : pyReplace old rep l = l := by
  match old with
  | [] => exact absurd rfl hne
  | p :: ps => exact pyReplaceAux_id p ps rep l.length l le_rfl hocc

/-- The entity `&amp;`. -/
def ampEntity : List Char := ['&', 'a', 'm', 'p', ';']

/-- The entity `&#38;`. -/
def decEntity : List Char := ['&', '#', '3', '8', ';']

/-- The entity `&#x26;`. -/
def hexEntity : List Char := ['&', '#', 'x', '2', '6', ';']

/-- `AffiliateScanner._normalize_url` (v2, lines 213-228): strip
whitespace, then decode `&amp;`, `&#38;`, `&#x26;` to `&`, in source
order.  The `try/except` wrapper cannot fire (all operations total). -/
def _normalize_url (url : List Char) : List Char :=
  pyReplace hexEntity ['&']
    (pyReplace decEntity ['&']
      (pyReplace ampEntity ['&'] (AffiliateScanner.pyStrip url)))

/-- `_compile_amazon_patterns` (v2, lines 65-86): five patterns with the
extended domain list. -/
def amazonPatterns : List RE :=
  [ reCat [reHttp, reOptWww, reStrCI "amazon.",
      reAlts (["com", "co.uk", "ca", "de", "fr", "it", "es", "co.jp", "cn",
        "com.au", "com.br", "com.mx"].map reStrCI),
      lit '/', clsNotQuote, clsQueryAmp,
      altS (reStrCI "tag") (reStrCI "associate-tag"), lit '=', rePlusTagChar],
    reCat [reHttp, reOptWww, reStrCI "amazon.",
      reAlts (["com", "co.uk", "ca", "de", "fr", "it", "es", "co.jp", "cn",
        "com.au", "com.br", "com.mx"].map reStrCI),
      reStrCI "/gp/product/", clsNotQuote, reStrCI "/ref=", clsNotQuote,
      lit '?', clsNotQuote, reStrCI "tag=", rePlusTagChar],
    reCat [reHttp, reOptWww, reStrCI "amazon.",
      reAlts (["com", "co.uk", "ca", "de", "fr", "it", "es", "co.jp", "cn",
        "com.au", "com.br", "com.mx"].map reStrCI),
      lit '/', clsNotQuote, reStrCI "/dp/", clsNotQuote, reStrCI "/ref=", clsNotQuote,
      lit '?', clsNotQuote, reStrCI "tag=", rePlusTagChar],
    reCat [reStrCI "http", reOpt (litCI 's'), reStrCI "://amzn.to/",
      rePlus (.cls Char.isAlphanum)],
    reCat [reStrCI "http", reOpt (litCI 's'), reStrCI "://smile.amazon.",
      reAlts (["com", "co.uk", "ca", "de", "fr", "it", "es", "co.jp", "cn",
        "com.au", "com.br", "com.mx"].map reStrCI),
      lit '/', clsNotQuote, clsQueryAmp, reStrCI "tag=", rePlusTagChar] ]

/-- `_compile_shareasale_patterns` (v2, lines 88-99): four patterns. -/
def shareasalePatterns : List RE :=
  [ reCat [reHttp, reOptWww, reStrCI "shareasale.com/", clsNotQuote, clsQueryAmp,
      reStrCI "r=", rePlusDigit],
    reCat [reHttp, reOptWww, reStrCI "shareasale.com/r.cfm?", clsNotQuote,
      altS (reStrCI "merchantID") (reStrCI "m"), lit '=', rePlusDigit],
    reCat [reHttp, reOptWww, reStrCI "shareasale.com/", clsNotQuote, lit '?',
      reStar (reCat [clsNotQuote, lit '&']), rePlusAlpha, lit '=', rePlusDigit],
    reCat [reHttp, reOptWww, reStrCI "shareasale.com/", clsNotQuote, clsQueryAmp,
      reStrCI "affiliate=", rePlusDigit] ]

/-- `_compile_cj_affiliate_patterns` (v2, lines 101-121): eight CJ
Affiliate domains. -/
def cjAffiliatePatterns : List RE :=
  ["anrdoezrs.net", "dpbolvw.net", "tkqlhce.com", "jdoqocy.com", "kqzyfj.com",
    "qksrv.net", "awltovhc.com", "vwcjb.net"].map
    (fun domain => reCat [reHttp, reOptWww, reStrCI domain, lit '/', rePlusPathChar])

/-- `_compile_ebay_patterns` (v2, lines 123-129). -/
def ebayPatterns : List RE :=
  [ reCat [reHttp, reOptWww, reStrCI "ebay.com/", clsNotQuote, clsQueryAmp,
      reStrCI "_trksid=", rePlusTagChar],
    reCat [reHttp, reOptWww, reStrCI "ebay.com/", clsNotQuote, clsQueryAmp,
      reStrCI "mkcid=", rePlusDigit],
    reCat [reHttp, reOptWww, reStrCI "ebay.com/", clsNotQuote, clsQueryAmp,
      reStrCI "campid=", rePlusDigit] ]

/-- `_compile_clickbank_patterns` (v2, lines 131-137). -/
def clickbankPatterns : List RE :=
  [ reCat [reHttp,
      reOpt (reCat [rePlus (.cls (fun c => c.isAlphanum || c == '-')), lit '.']),
      reStrCI "clickbank.net/", clsNotQuote],
    reCat [reHttp, altS (reStrCI "hop") (reStrCI "redirect"),
      reStrCI ".clickbank.net/?", clsNotQuote],
    reCat [reHttp, clsNotQuote, reStrCI ".hop.clickbank.net", clsNotQuote] ]

/-- `self.patterns` (v2, lines 48-54) paired with `self.network_names`
(lines 57-63), in insertion order. -/
def networkTable : List (String × String × List RE) :=
  [("amazon", "Amazon Associates", amazonPatterns),
   ("shareasale", "ShareASale", shareasalePatterns),
   ("cj_affiliate", "CJ Affiliate", cjAffiliatePatterns),
   ("ebay", "eBay Partner Network", ebayPatterns),
   ("clickbank", "ClickBank", clickbankPatterns)]

/-- The pattern-table scan of `_is_affiliate_link` on an
already-normalized URL: networks in table order, patterns in declaration
order, first match wins. -/
def scanNetworks (normalized_url : List Char) : Option AffiliateScanner.AffiliateMatch :=
  networkTable.findSome? fun entry =>
    if (entry.2.2).any (fun pattern => reSearch pattern normalized_url) then
      some ⟨entry.1, entry.2.1, normalized_url⟩
    else none

/-- `AffiliateScanner._is_affiliate_link` (v2, lines 230-252): normalize
the URL, then scan the pattern table. -/
def _is_affiliate_link (url : List Char) : Option AffiliateScanner.AffiliateMatch :=
  scanNetworks (_normalize_url url)

/-- An Amazon URL whose affiliate `tag` parameter is separated by the
HTML entity `&amp;` instead of a bare `&`. -/
def ampExampleUrl : List Char :=
  "https://www.amazon.com/product?x=1&amp;tag=foo-20".toList

/-- The same URL after entity decoding. -/
def ampDecodedUrl : List Char :=
  "https://www.amazon.com/product?x=1&tag=foo-20".toList

/-- A URL with no surrounding whitespace and none of the three entities. -/
def cleanUrl : List Char := "https://example.com/page".toList

/-- **C7.** The v2 detector normalizes every candidate URL before pattern
matching, and the normalization is exactly: trim whitespace, then decode
the HTML entities `&amp;`, `&#38;`, `&#x26;` into `&` — nothing else
(a URL already trimmed and entity-free is left unchanged).  In
particular, the URL whose affiliate tag parameter is separated by `&amp;`
is still classified as an Amazon Associates affiliate link, carrying the
decoded URL. -/
theorem normalize_url_spec :
    (∀ url, _is_affiliate_link url = scanNetworks (_normalize_url url))
    ∧ (∀ url, _normalize_url url
        = pyReplace hexEntity ['&'] (pyReplace decEntity ['&']
            (pyReplace ampEntity ['&'] (AffiliateScanner.pyStrip url))))
    ∧ (∀ url, AffiliateScanner.pyStrip url = url →
        occursIn ampEntity url = false → occursIn decEntity url = false →
        occursIn hexEntity url = false → _normalize_url url = url)
    ∧ _is_affiliate_link ampExampleUrl
        = some ⟨"amazon", "Amazon Associates", ampDecodedUrl⟩ :=
  ⟨fun _ => rfl, fun _ => rfl,
   by
    intro url h1 h2 h3 h4
    unfold _normalize_url
    rw [h1, pyReplace_id h2 (by decide), pyReplace_id h3 (by decide),
      pyReplace_id h4 (by decide)],
   by decide⟩

/-- Witness for C7: a trimmed, entity-free URL is left unchanged by
normalization, and the `&amp;`-separated Amazon URL is classified as an
affiliate link. -/
theorem normalize_url_spec_witness :
    _normalize_url cleanUrl = cleanUrl
    ∧ _is_affiliate_link ampExampleUrl
        = some ⟨"amazon", "Amazon Associates", ampDecodedUrl⟩ :=
  ⟨normalize_url_spec.2.2.1 cleanUrl (by decide) (by decide) (by decide) (by decide),
   normalize_url_spec.2.2.2⟩

end AffiliateScannerV2

/-! ## llm_analysis.py — provider fallback

`FreeLLMClient.call_provider` (lines 60-92) builds an ordered candidate
list (the preferred provider first, if credentialed, then every other
credentialed provider in declaration order, without duplicates), raises
`LLMAnalysisError("No LLM providers configured...")` when the list is
empty, tries each candidate once, and raises
`LLMAnalysisError("All providers failed. Last error: ...")` carrying the
last recorded error when all attempts fail.  The HTTP call
`_make_request` is external: it is modelled by an oracle
`outcome : LLMProvider → Except String String` (error message or
response body).  The model additionally records the trace of attempted
provider names, which the source only logs. -/

namespace LLMAnalysis

/-- One entry of `FreeLLMClient._setup_providers` (lines 27-50).  The
`headers` closure is omitted: it is identical for both providers and
carries no decision-relevant data. -/
structure LLMProvider where
  name : String
  base_url : String
  api_key : Option String
  model : String
  deriving DecidableEq

/-- Python truthiness of `provider['api_key']`: `os.getenv` yields `None`
(unset) or a string, and the empty string is falsy. -/
def keyTruthy : Option String → Bool
  | none => false
  | some s => !(s == "")

/-- `if provider['api_key']`. -/
def hasKey (p : LLMProvider) : Bool := keyTruthy p.api_key

/-- `_setup_providers` (lines 27-50): the fixed two-provider table, in
declaration order, with the two environment keys as parameters. -/
def _setup_providers (deepseek_key groq_key : Option String) : List LLMProvider :=
  [⟨"deepseek", "https://api.deepseek.com/v1", deepseek_key, "deepseek-chat"⟩,
   ⟨"groq", "https://api.groq.com/openai/v1", groq_key, "llama-3.1-8b-instant"⟩]

/-- `get_available_providers` (lines 52-58). -/
def get_available_providers (providers : List LLMProvider) : List String :=
  (providers.filter hasKey).map (·.name)

/-- The `providers_to_try` list built by `call_provider` (lines 65-76):
the named provider first when found and credentialed, then every other
credentialed provider in declaration order (`p not in providers_to_try`
skips the one already added). -/
def providersToTry (providers : List LLMProvider) (provider_name : Option String) :
    List LLMProvider :=
  let base : List LLMProvider :=
    match provider_name with
    | none => []
    | some n =>
      match providers.find? (fun p => p.name == n) with
      | some target => if hasKey target then [target] else []
      | none => []
  base ++ providers.filter (fun p => hasKey p && !(base.contains p))

/-- Outcome of `call_provider`: a response body, or one of the two
`LLMAnalysisError` failure modes. -/
inductive CallResult where
  | success (content : String)
  | noProviderConfigured
  | allProvidersFailed (lastError : String)
  deriving DecidableEq

/-- The `for provider in providers_to_try` loop (lines 82-92): try each
candidate once, return the first successful response, record the error
and move on otherwise; when the list is exhausted raise
`AllProvidersFailed` with the last recorded error.  Returns the result
together with the trace of attempted provider names. -/
def tryEach (outcome : LLMProvider → Except String String) :
    List LLMProvider → Option String → CallResult × List String
  | [], last =>
    (match last with
     | some e => .allProvidersFailed e
     | none => .allProvidersFailed "", [])
  | p :: rest, _ =>
    match outcome p with
    | .ok s => (.success s, [p.name])
    | .error e =>
      let r := tryEach outcome rest (some e)
      (r.1, p.name :: r.2)

/-- `FreeLLMClient.call_provider` (lines 60-92). -/
def call_provider (providers : List LLMProvider)
    (outcome : LLMProvider → Except String String)
    (provider_name : Option String) : CallResult × List String :=
  let pts := providersToTry providers provider_name
  if pts.isEmpty then (.noProviderConfigured, [])
  else tryEach outcome pts none

theorem tryEach_cons_ok {outcome : LLMProvider → Except String String}
    {p : LLMProvider} {s : String} (rest : List LLMProvider) (last : Option String)
    (hop : outcome p = .ok s) :
    tryEach outcome (p :: rest) last = (.success s, [p.name]) := by
  simp only [tryEach, hop]

theorem tryEach_cons_error {outcome : LLMProvider → Except String String}
    {p : LLMProvider} {e : String} (rest : List LLMProvider) (last : Option String)
    (hop : outcome p = .error e) :
    tryEach outcome (p :: rest) last
      = ((tryEach outcome rest (some e)).1, p.name :: (tryEach outcome rest (some e)).2) := by
  simp only [tryEach, hop]

theorem tryEach_attempted_take (outcome : LLMProvider → Except String String) :
    ∀ (pts : List LLMProvider) (last : Option String),
      ∃ k, (tryEach outcome pts last).2 = (pts.map (·.name)).take k := by
  intro pts
  induction pts with
  | nil => exact fun _ => ⟨0, rfl⟩
  | cons p rest ih =>
    intro last
    cases h : outcome p with
    | ok s => exact ⟨1, by rw [tryEach_cons_ok rest last h]; rfl⟩
    | error e =>
      obtain ⟨k, hk⟩ := ih (some e)
      exact ⟨k + 1, by rw [tryEach_cons_error rest last h]; simp [hk]⟩

theorem tryEach_not_noProvider (outcome : LLMProvider → Except String String) :
    ∀ (pts : List LLMProvider) (last : Option String),
      (tryEach outcome pts last).1 ≠ .noProviderConfigured := by
  intro pts
  induction pts with
  | nil =>
    intro last
    cases last <;> exact fun hc => nomatch hc
  | cons p rest ih =>
    intro last
    cases h : outcome p with
    | ok s => rw [tryEach_cons_ok rest last h]; exact fun hc => nomatch hc
    | error e => rw [tryEach_cons_error rest last h]; exact ih (some e)

theorem tryEach_all_fail (outcome : LLMProvider → Except String String) :
    ∀ (pts : List LLMProvider) (last : Option String), pts ≠ [] →
      (∀ p ∈ pts, (outcome p).isOk = false) →
      ∃ e lastp, pts.getLast? = some lastp ∧ outcome lastp = .error e
        ∧ (tryEach outcome pts last).1 = .allProvidersFailed e := by
  intro pts
  induction pts with
  | nil => intro _ h; exact absurd rfl h
  | cons p rest ih =>
    intro last _ hfail
    have hp := hfail p (List.mem_cons_self p rest)
    cases hop : outcome p with
    | ok s => rw [hop] at hp; simp [Except.isOk, Except.toBool] at hp
    | error e =>
      cases rest with
      | nil =>
        refine ⟨e, p, rfl, hop, ?_⟩
        rw [tryEach_cons_error [] last hop]
        rfl
      | cons q rest2 =>
        obtain ⟨e', lastp, hlast, houtp, hres⟩ :=
          ih (some e) (by simp) (fun x hx => hfail x (List.mem_cons_of_mem _ hx))
        refine ⟨e', lastp, ?_, houtp, ?_⟩
        · rw [List.getLast?_cons_cons]
          exact hlast
        · rw [tryEach_cons_error (q :: rest2) last hop]
          exact hres

theorem tryEach_head (outcome : LLMProvider → Except String String)
    (p : LLMProvider) (rest : List LLMProvider) (last : Option String) :
    (tryEach outcome (p :: rest) last).2.head? = some p.name := by
  cases h : outcome p with
  | ok s => rw [tryEach_cons_ok rest last h]; rfl
  | error e => rw [tryEach_cons_error rest last h]; rfl

theorem providersToTry_hasKey (providers : List LLMProvider) (pn : Option String)
    (p : LLMProvider) (hp : p ∈ providersToTry providers pn) : hasKey p = true := by
  simp only [providersToTry] at hp
  rcases List.mem_append.mp hp with hb | hf
  · split at hb
    · simp at hb
    · split at hb
      · split at hb
        · rename_i hk
          simp only [List.mem_singleton] at hb
          exact hb ▸ hk
        · simp at hb
      · simp at hb
  · exact ((Bool.and_eq_true _ _).mp (List.mem_filter.mp hf).2).1

theorem providersToTry_eq_nil_iff (providers : List LLMProvider) (pn : Option String) :
    providersToTry providers pn = [] ↔ ∀ p ∈ providers, hasKey p = false := by
  constructor
  · intro hnil p hp
    simp only [providersToTry] at hnil
    obtain ⟨hbase, hfilter⟩ := List.append_eq_nil.mp hnil
    rw [hbase] at hfilter
    have hnotmem := List.filter_eq_nil_iff.mp hfilter p hp
    simpa using hnotmem
  · intro hall
    simp only [providersToTry]
    have hbase : (match pn with
        | none => ([] : List LLMProvider)
        | some n =>
          match providers.find? (fun p => p.name == n) with
          | some target => if hasKey target then [target] else []
          | none => []) = [] := by
      split
      · rfl
      · split
        · rename_i target hfind
          have htm : target ∈ providers := List.mem_of_find?_eq_some hfind
          rw [if_neg (by simp [hall target htm])]
        · rfl
    rw [hbase]
    simp only [List.nil_append]
    exact List.filter_eq_nil_iff.mpr fun p hp => by simp [hall p hp]

theorem providersToTry_subset (providers : List LLMProvider) (pn : Option String) :
    ∀ p ∈ providersToTry providers pn, p ∈ providers := by
  intro p hp
  simp only [providersToTry] at hp
  rcases List.mem_append.mp hp with hb | hf
  · split at hb
    · simp at hb
    · split at hb
      · rename_i target hfind
        split at hb
        · simp only [List.mem_singleton] at hb
          exact hb ▸ List.mem_of_find?_eq_some hfind
        · simp at hb
      · simp at hb
  · exact (List.mem_filter.mp hf).1

theorem providersToTry_names_nodup (providers : List LLMProvider) (pn : Option String)
    (hnd : (providers.map (·.name)).Nodup) :
    ((providersToTry providers pn).map (·.name)).Nodup := by
  have hfiltered : ∀ base : List LLMProvider,
      ((providers.filter (fun p => hasKey p && !(base.contains p))).map (·.name)).Nodup :=
    fun base => hnd.sublist ((List.filter_sublist providers).map _)
  simp only [providersToTry]
  split
  · simpa using hfiltered []
  · split
    · rename_i target hfind
      split
      · rename_i hk
        simp only [List.cons_append, List.nil_append, List.map_cons]
        refine List.nodup_cons.mpr ⟨?_, hfiltered [target]⟩
        intro hmem
        obtain ⟨q, hqmem, hqname⟩ := List.mem_map.mp hmem
        have hq := List.mem_filter.mp hqmem
        have htp : target ∈ providers := List.mem_of_find?_eq_some hfind
        have hqt : q = target := List.inj_on_of_nodup_map hnd hq.1 htp hqname
        have hcont := ((Bool.and_eq_true _ _).mp hq.2).2
        rw [hqt] at hcont
        simp at hcont
      · simpa using hfiltered []
    · simpa using hfiltered []

/-- `find?` by name on the concrete provider table returns the member
itself (the two declared names are distinct). -/
theorem setup_find_self (dk gk : Option String) (p : LLMProvider)
    (hp : p ∈ _setup_providers dk gk) :
    (_setup_providers dk gk).find? (fun q => q.name == p.name) = some p := by
  simp only [_setup_providers, List.mem_cons, List.mem_singleton, List.not_mem_nil,
    or_false] at hp
  rcases hp with rfl | rfl <;> simp [List.find?]

/-- **C5.** `FreeLLMClient.call_provider` raises the
`NoProviderConfigured` error exactly when zero providers have (truthy)
credentials; a provider lacking a credential is never attempted and never
supplies the recorded error; the attempts follow the candidate order —
the preferred credentialed provider first, then the other credentialed
providers in declaration order — with no provider attempted twice; and
when every candidate fails, it raises `AllProvidersFailed` carrying the
error of the last attempted provider. -/
theorem call_provider_contract (dk gk : Option String)
    (outcome : LLMProvider → Except String String) (pn : Option String) :
    ((call_provider (_setup_providers dk gk) outcome pn).1 = .noProviderConfigured
      ↔ ∀ p ∈ _setup_providers dk gk, hasKey p = false)
    ∧ (∀ n ∈ (call_provider (_setup_providers dk gk) outcome pn).2,
        ∃ p ∈ _setup_providers dk gk, p.name = n ∧ hasKey p = true)
    ∧ (call_provider (_setup_providers dk gk) outcome pn).2.Nodup
    ∧ (∃ k, (call_provider (_setup_providers dk gk) outcome pn).2
        = ((providersToTry (_setup_providers dk gk) pn).map (·.name)).take k)
    ∧ (∀ p ∈ _setup_providers dk gk, pn = some p.name → hasKey p = true →
        (call_provider (_setup_providers dk gk) outcome pn).2.head? = some p.name)
    ∧ ((∃ p ∈ _setup_providers dk gk, hasKey p = true) →
        (∀ p ∈ providersToTry (_setup_providers dk gk) pn, (outcome p).isOk = false) →
        ∃ e lastp,
          (providersToTry (_setup_providers dk gk) pn).getLast? = some lastp
          ∧ outcome lastp = .error e
          ∧ (call_provider (_setup_providers dk gk) outcome pn).1
            = .allProvidersFailed e) := by
  have hnd : ((_setup_providers dk gk).map (·.name)).Nodup := by
    show (["deepseek", "groq"] : List String).Nodup
    decide
  by_cases hE : providersToTry (_setup_providers dk gk) pn = []
  · have hcall : call_provider (_setup_providers dk gk) outcome pn
        = (.noProviderConfigured, []) := by
      simp [call_provider, hE]
    have hall := (providersToTry_eq_nil_iff _ pn).mp hE
    refine ⟨?_, ?_, ?_, ?_, ?_, ?_⟩
    · rw [hcall]
      exact iff_of_true rfl hall
    · rw [hcall]
      intro n hn
      simp at hn
    · rw [hcall]
      exact List.nodup_nil
    · exact ⟨0, by rw [hcall]; rfl⟩
    · intro p hp _ hk
      exact absurd (hall p hp) (by simp [hk])
    · intro hne _
      obtain ⟨p, hp, hk⟩ := hne
      exact absurd (hall p hp) (by simp [hk])
  · have hcall : call_provider (_setup_providers dk gk) outcome pn
        = tryEach outcome (providersToTry (_setup_providers dk gk) pn) none := by
      simp [call_provider, hE]
    refine ⟨?_, ?_, ?_, ?_, ?_, ?_⟩
    · rw [hcall]
      exact iff_of_false (tryEach_not_noProvider outcome _ none)
        (fun hall => hE ((providersToTry_eq_nil_iff _ pn).mpr hall))
    · rw [hcall]
      intro n hn
      obtain ⟨k, hk⟩ := tryEach_attempted_take outcome
        (providersToTry (_setup_providers dk gk) pn) none
      rw [hk] at hn
      have hn' := List.take_subset _ _ hn
      obtain ⟨p, hpmem, hpname⟩ := List.mem_map.mp hn'
      exact ⟨p, providersToTry_subset _ pn p hpmem, hpname,
        providersToTry_hasKey _ pn p hpmem⟩
    · rw [hcall]
      obtain ⟨k, hk⟩ := tryEach_attempted_take outcome
        (providersToTry (_setup_providers dk gk) pn) none
      rw [hk]
      exact (providersToTry_names_nodup _ pn hnd).sublist (List.take_sublist _ _)
    · rw [hcall]
      exact tryEach_attempted_take outcome _ none
    · intro p hp hpn hk
      have hfind := setup_find_self dk gk p hp
      have hpts : providersToTry (_setup_providers dk gk) pn
          = p :: (_setup_providers dk gk).filter
              (fun q => hasKey q && !(List.contains [p] q)) := by
        simp only [providersToTry, hpn, hfind, if_pos hk, List.cons_append,
          List.nil_append]
      rw [hcall, hpts]
      exact tryEach_head outcome p _ none
    · intro _ hfail
      obtain ⟨e, lastp, hlast, hout, hres⟩ :=
        tryEach_all_fail outcome (providersToTry (_setup_providers dk gk) pn) none hE hfail
      exact ⟨e, lastp, hlast, hout, by rw [hcall]; exact hres⟩

/-- A concrete oracle on which every provider attempt fails. -/
def failingOutcome : LLMProvider → Except String String :=
  fun p => .error ("fail " ++ p.name)

/-- Witness for C5: with both keys set, the preferred provider `groq` is
attempted first, and when every attempt fails the result is
`AllProvidersFailed` with the last attempted provider's error. -/
theorem call_provider_contract_witness :
    (call_provider (_setup_providers (some "k1") (some "k2")) failingOutcome
        (some "groq")).2.head? = some "groq"
    ∧ ∃ e lastp,
        (providersToTry (_setup_providers (some "k1") (some "k2")) (some "groq")).getLast?
          = some lastp
        ∧ failingOutcome lastp = .error e
        ∧ (call_provider (_setup_providers (some "k1") (some "k2")) failingOutcome
            (some "groq")).1 = .allProvidersFailed e :=
  ⟨(call_provider_contract (some "k1") (some "k2") failingOutcome
      (some "groq")).2.2.2.2.1
    ⟨"groq", "https://api.groq.com/openai/v1", some "k2", "llama-3.1-8b-instant"⟩
    (by decide) rfl (by decide),
   (call_provider_contract (some "k1") (some "k2") failingOutcome
      (some "groq")).2.2.2.2.2
    ⟨⟨"groq", "https://api.groq.com/openai/v1", some "k2", "llama-3.1-8b-instant"⟩,
      by decide, by decide⟩
    (by decide)⟩

/-! ### Response validation (`analyze_with_llm`, lines 205-243)

The provider's response body is parsed with `json.loads` and validated
fail-closed.  The parse result is modelled as `Except String JVal`
(`.error` = `json.JSONDecodeError`).  JSON values distinguish booleans
from numbers; Python's `isinstance(confidence, (int, float))` accepts
booleans because `bool` is a subtype of `int` (`True == 1`,
`False == 0`), so a JSON boolean passes the confidence check (see C10).
The source's error messages embed Python list reprs; the embedding uses
shortened messages — no claim depends on the exact text, only on ok
versus error. -/

/-- A parsed JSON value (`json.loads` output).  Objects keep their key
order; a duplicated key is resolved last-wins, as `json.loads` does. -/
inductive JVal where
  | null
  | jbool (b : Bool)
  | jnum (q : ℚ)
  | jstr (s : String)
  | jarr (elems : List JVal)
  | jobj (fields : List (String × JVal))

/-- `analysis_result[k]` on a parsed object: the last binding wins. -/
def jGet (fields : List (String × JVal)) (k : String) : Option JVal :=
  (fields.reverse.find? (fun kv => kv.1 == k)).map (·.2)

/-- `k in analysis_result`. -/
def jHas (fields : List (String × JVal)) (k : String) : Bool :=
  (jGet fields k).isSome

/-- `required_fields` (line 214). -/
def required_fields : List String :=
  ["disclosure_found", "disclosure_location", "content_intent", "confidence_score",
   "reasoning"]

/-- `valid_locations` (line 223). -/
def valid_locations : List String := ["beginning", "middle", "end", "nowhere"]

/-- `valid_intents` (line 227). -/
def valid_intents : List String := ["informative", "persuasive", "mixed"]

/-- The validated fields of a response (the `reasoning` value is returned
as-is, its type is never checked). -/
structure ValidatedAnalysis where
  disclosure_found : Bool
  disclosure_location : String
  content_intent : String
  confidence_score : ℚ
  reasoning : JVal

/-- The validation sequence of `analyze_with_llm` (lines 213-243) on a
parsed JSON object: required fields in order, `disclosure_found` a
genuine boolean, `disclosure_location` and `content_intent` in their
enumerations, `confidence_score` an `isinstance((int, float))` value —
booleans included — within `[0.0, 1.0]`; `float(confidence)` maps
`True`/`False` to `1.0`/`0.0`. -/
def validateFields (fields : List (String × JVal)) : Except String ValidatedAnalysis :=
  match required_fields.find? (fun f => !(jHas fields f)) with
  | some f => .error ("Missing required field in LLM response: " ++ f)
  | none =>
    match jGet fields "disclosure_found" with
    | some (.jbool df) =>
      (match jGet fields "disclosure_location" with
       | some (.jstr loc) =>
          if valid_locations.contains loc then
            (match jGet fields "content_intent" with
             | some (.jstr intent) =>
                if valid_intents.contains intent then
                  (match jGet fields "confidence_score" with
                   | some (.jnum q) =>
                      if q < 0 ∨ 1 < q then
                        .error "confidence_score must be a float between 0.0 and 1.0"
                      else
                        .ok ⟨df, loc, intent, q, (jGet fields "reasoning").getD .null⟩
                   | some (.jbool b) =>
                      .ok ⟨df, loc, intent, if b then 1 else 0,
                        (jGet fields "reasoning").getD .null⟩
                   | _ => .error "confidence_score must be a float between 0.0 and 1.0")
                else .error "content_intent must be one of the valid intents"
             | _ => .error "content_intent must be one of the valid intents")
          else .error "disclosure_location must be one of the valid locations"
       | _ => .error "disclosure_location must be one of the valid locations")
    | _ => .error "disclosure_found must be a boolean"

/-- Validation of the raw parse result: a `json.JSONDecodeError` becomes
`LLMAnalysisError("Invalid JSON response from LLM: ...")`; a JSON value
that is not an object always ends in some `LLMAnalysisError` too (a
missing-field error, or a `TypeError` caught by the blanket handler of
lines 255-258), modelled as a single error. -/
def validateLLMResponse (parsed : Except String JVal) : Except String ValidatedAnalysis :=
  match parsed with
  | .error e => .error ("Invalid JSON response from LLM: " ++ e)
  | .ok (.jobj fields) => validateFields fields
  | .ok _ => .error "Unexpected error during LLM analysis"

/-- Spec-side check, following the §4.2 words: `disclosure_found` a
boolean, `disclosure_location` in its enumeration, `content_intent` in
its enumeration. -/
def specBoolOk : Option JVal → Bool
  | some (.jbool _) => true
  | _ => false

/-- Spec-side: `disclosure_location` must be exactly one of the four
locations (a non-string value is never equal to any of them). -/
def specLocOk : Option JVal → Bool
  | some (.jstr s) => valid_locations.contains s
  | _ => false

/-- Spec-side: `content_intent` must be exactly one of the three
intents. -/
def specIntentOk : Option JVal → Bool
  | some (.jstr s) => valid_intents.contains s
  | _ => false

/-- Spec-side: `confidence_score` must be a number in `[0.0, 1.0]`,
where "number" is Python-numeric — a boolean is an `int` (`True == 1`,
`False == 0`, both within bounds; cf. C10). -/
def specNumOk : Option JVal → Bool
  | some (.jnum q) => decide (0 ≤ q) && decide (q ≤ 1)
  | some (.jbool _) => true
  | _ => false

/-- Spec-side validity of a parsed object, following the §4.2 response
validation words: all five required fields present and each field
well-formed. -/
def specValidObj (fields : List (String × JVal)) : Bool :=
  jHas fields "disclosure_found" && jHas fields "disclosure_location"
    && jHas fields "content_intent" && jHas fields "confidence_score"
    && jHas fields "reasoning"
    && specBoolOk (jGet fields "disclosure_found")
    && specLocOk (jGet fields "disclosure_location")
    && specIntentOk (jGet fields "content_intent")
    && specNumOk (jGet fields "confidence_score")

/-- Spec-side validity of a raw response: it must parse as JSON, be an
object, and satisfy `specValidObj`. -/
def specValidResponse : Except String JVal → Bool
  | .error _ => false
  | .ok (.jobj fields) => specValidObj fields
  | .ok _ => false

/-- Everything a successful validation implies about the input fields:
each output component is the exact field value (no default is ever
substituted). -/
theorem validateFields_ok_facts (fields : List (String × JVal))
    (out : ValidatedAnalysis) (h : validateFields fields = .ok out) :
    jGet fields "disclosure_found" = some (.jbool out.disclosure_found)
    ∧ jGet fields "disclosure_location" = some (.jstr out.disclosure_location)
    ∧ valid_locations.contains out.disclosure_location = true
    ∧ jGet fields "content_intent" = some (.jstr out.content_intent)
    ∧ valid_intents.contains out.content_intent = true
    ∧ ((jGet fields "confidence_score" = some (.jnum out.confidence_score)
          ∧ ¬(out.confidence_score < 0 ∨ 1 < out.confidence_score))
        ∨ ∃ b, jGet fields "confidence_score" = some (.jbool b)
            ∧ out.confidence_score = (if b then 1 else 0))
    ∧ jGet fields "reasoning" = some out.reasoning
    ∧ required_fields.find? (fun f => !(jHas fields f)) = none := by
  unfold validateFields at h
  split at h
  · exact absurd h (by simp)
  · rename_i hmiss
    have hreas : ∃ r, jGet fields "reasoning" = some r := by
      have := List.find?_eq_none.mp hmiss "reasoning" (by simp [required_fields])
      simp only [Bool.not_eq_true', Bool.not_eq_false] at this
      exact Option.isSome_iff_exists.mp this
    obtain ⟨r, hr⟩ := hreas
    split at h
    · rename_i df hdf
      split at h
      · rename_i loc hloc
        split at h
        · rename_i hcloc
          split at h
          · rename_i intent hint
            split at h
            · rename_i hcint
              split at h
              · rename_i q hq
                split at h
                · exact absurd h (by simp)
                · rename_i hbound
                  obtain rfl := (Except.ok.inj h).symm
                  refine ⟨hdf, hloc, hcloc, hint, hcint, Or.inl ⟨hq, hbound⟩, ?_, hmiss⟩
                  simp [hr]
              · rename_i b hb
                obtain rfl := (Except.ok.inj h).symm
                refine ⟨hdf, hloc, hcloc, hint, hcint, Or.inr ⟨b, hb, rfl⟩, ?_, hmiss⟩
                simp [hr]
              · exact absurd h (by simp)
            · exact absurd h (by simp)
          · exact absurd h (by simp)
        · exact absurd h (by simp)
      · exact absurd h (by simp)
    · exact absurd h (by simp)

/-- A spec-valid object validates successfully. -/
theorem validateFields_ok_of_spec (fields : List (String × JVal))
    (h : specValidObj fields = true) : (validateFields fields).isOk = true := by
  simp only [specValidObj, Bool.and_eq_true] at h
  obtain ⟨⟨⟨⟨⟨⟨⟨⟨h1, h2⟩, h3⟩, h4⟩, h5⟩, hdf⟩, hloc⟩, hint⟩, hnum⟩ := h
  have hmiss : required_fields.find? (fun f => !(jHas fields f)) = none := by
    refine List.find?_eq_none.mpr ?_
    intro f hf
    simp only [required_fields, List.mem_cons, List.not_mem_nil, or_false] at hf
    rcases hf with rfl | rfl | rfl | rfl | rfl <;> simp [h1, h2, h3, h4, h5]
  obtain ⟨df, hdf'⟩ : ∃ b, jGet fields "disclosure_found" = some (.jbool b) := by
    revert hdf
    cases hx : jGet fields "disclosure_found" with
    | none => simp [specBoolOk]
    | some v => cases v <;> simp [specBoolOk]
  obtain ⟨loc, hloc', hcloc⟩ : ∃ s, jGet fields "disclosure_location" = some (.jstr s)
      ∧ valid_locations.contains s = true := by
    revert hloc
    cases hx : jGet fields "disclosure_location" with
    | none => simp [specLocOk]
    | some v => cases v <;> simp [specLocOk]
  obtain ⟨intent, hint', hcint⟩ : ∃ s, jGet fields "content_intent" = some (.jstr s)
      ∧ valid_intents.contains s = true := by
    revert hint
    cases hx : jGet fields "content_intent" with
    | none => simp [specIntentOk]
    | some v => cases v <;> simp [specIntentOk]
  unfold validateFields
  rw [hmiss, hdf', hloc', hint']
  simp only [if_pos hcloc, if_pos hcint]
  cases hx : jGet fields "confidence_score" with
  | none => rw [hx] at hnum; simp [specNumOk] at hnum
  | some v =>
    cases v with
    | jnum q =>
      rw [hx] at hnum
      simp only [specNumOk, Bool.and_eq_true, decide_eq_true_eq] at hnum
      have hb1 : ¬(q < 0) := not_lt.mpr hnum.1
      have hb2 : ¬(1 < q) := not_lt.mpr hnum.2
      simp [hb1, hb2, Except.isOk, Except.toBool]
    | jbool b => rfl
    | null => rw [hx] at hnum; simp [specNumOk] at hnum
    | jstr s => rw [hx] at hnum; simp [specNumOk] at hnum
    | jarr elems => rw [hx] at hnum; simp [specNumOk] at hnum
    | jobj f2 => rw [hx] at hnum; simp [specNumOk] at hnum

/-- A successful validation implies the spec-side validity. -/
theorem validateFields_spec_of_ok (fields : List (String × JVal))
    (out : ValidatedAnalysis) (h : validateFields fields = .ok out) :
    specValidObj fields = true := by
  obtain ⟨hdf, hloc, hcloc, hint, hcint, hnum, hreas, hmiss⟩ :=
    validateFields_ok_facts fields out h
  have hall := List.find?_eq_none.mp hmiss
  have hj : ∀ f ∈ required_fields, jHas fields f = true := by
    intro f hf
    have := hall f hf
    simpa using this
  simp only [specValidObj, Bool.and_eq_true]
  refine ⟨⟨⟨⟨⟨⟨⟨⟨?_, ?_⟩, ?_⟩, ?_⟩, ?_⟩, ?_⟩, ?_⟩, ?_⟩, ?_⟩
  · exact hj _ (by simp [required_fields])
  · exact hj _ (by simp [required_fields])
  · exact hj _ (by simp [required_fields])
  · exact hj _ (by simp [required_fields])
  · exact hj _ (by simp [required_fields])
  · rw [hdf]; rfl
  · rw [hloc]; simpa [specLocOk] using hcloc
  · rw [hint]; simpa [specIntentOk] using hcint
  · rcases hnum with ⟨hq, hbound⟩ | ⟨b, hb, _⟩
    · rw [hq]
      simp only [not_or, not_lt] at hbound
      simp only [specNumOk, Bool.and_eq_true, decide_eq_true_eq]
      exact ⟨hbound.1, hbound.2⟩
    · rw [hb]; rfl

theorem validate_isOk_exists (e : Except String ValidatedAnalysis) :
    e.isOk = true ↔ ∃ out, e = .ok out := by
  cases e <;> simp [Except.isOk, Except.toBool]

/-- **C6.** Response validation in `analyze_with_llm` is fail-closed:
validation succeeds exactly on the spec-valid response bodies — valid
JSON object, all five required fields present, `disclosure_found` a
genuine boolean, `disclosure_location` in its four-value enumeration,
`content_intent` in its three-value enumeration, and `confidence_score`
a (Python-)numeric value in `[0.0, 1.0]`, where booleans count as
numeric with `True == 1`, `False == 0` (cf. C10) — so e.g.
`confidence_score = 1.5` or `disclosure_location = "unknown"` raise a
validation error; and on success every returned component is the exact
field value from the response: no default value is ever substituted for
a missing or invalid field. -/
theorem llm_validation_fail_closed :
    (∀ parsed, (validateLLMResponse parsed).isOk = specValidResponse parsed)
    ∧ (∀ parsed out, validateLLMResponse parsed = .ok out →
        ∃ fields, parsed = .ok (.jobj fields)
          ∧ jGet fields "disclosure_found" = some (.jbool out.disclosure_found)
          ∧ jGet fields "disclosure_location" = some (.jstr out.disclosure_location)
          ∧ jGet fields "content_intent" = some (.jstr out.content_intent)
          ∧ (jGet fields "confidence_score" = some (.jnum out.confidence_score)
              ∨ ∃ b, jGet fields "confidence_score" = some (.jbool b)
                  ∧ out.confidence_score = (if b then 1 else 0))
          ∧ jGet fields "reasoning" = some out.reasoning) := by
  constructor
  · intro parsed
    cases parsed with
    | error e => rfl
    | ok v =>
      cases v with
      | jobj fields =>
        show (validateFields fields).isOk = specValidObj fields
        cases hS : specValidObj fields with
        | true => exact validateFields_ok_of_spec fields hS
        | false =>
          by_contra hcon
          rw [Bool.not_eq_false] at hcon
          obtain ⟨out, hout⟩ := (validate_isOk_exists _).mp hcon
          exact absurd (validateFields_spec_of_ok fields out hout) (by simp [hS])
      | null => rfl
      | jbool b => rfl
      | jnum q => rfl
      | jstr s => rfl
      | jarr elems => rfl
  · intro parsed out h
    cases parsed with
    | error e => exact absurd h (by simp [validateLLMResponse])
    | ok v =>
      cases v with
      | jobj fields =>
        obtain ⟨hdf, hloc, _, hint, _, hnum, hreas, _⟩ :=
          validateFields_ok_facts fields out h
        refine ⟨fields, rfl, hdf, hloc, hint, ?_, hreas⟩
        rcases hnum with ⟨hq, _⟩ | ⟨b, hb, hcb⟩
        · exact Or.inl hq
        · exact Or.inr ⟨b, hb, hcb⟩
      | null => exact absurd h (by simp [validateLLMResponse])
      | jbool b => exact absurd h (by simp [validateLLMResponse])
      | jnum q => exact absurd h (by simp [validateLLMResponse])
      | jstr s => exact absurd h (by simp [validateLLMResponse])
      | jarr elems => exact absurd h (by simp [validateLLMResponse])

/-- `1.5`, `0.5` and `0.9` as explicit rational literals (`/` on `ℚ`
does not reduce in the kernel; the structure literals do). -/
def conf15 : ℚ := ⟨3, 2, by decide, by decide⟩

/-- `0.5`. -/
def conf05 : ℚ := ⟨1, 2, by decide, by decide⟩

/-- `0.9`. -/
def conf09 : ℚ := ⟨9, 10, by decide, by decide⟩

/-- A response with `confidence_score = 1.5` (all other fields valid). -/
def badConfFields : List (String × JVal) :=
  [("disclosure_found", .jbool true), ("disclosure_location", .jstr "beginning"),
   ("content_intent", .jstr "informative"), ("confidence_score", .jnum conf15),
   ("reasoning", .jstr "r")]

/-- A response with `disclosure_location = "unknown"` (all other fields
valid). -/
def badLocFields : List (String × JVal) :=
  [("disclosure_found", .jbool true), ("disclosure_location", .jstr "unknown"),
   ("content_intent", .jstr "informative"), ("confidence_score", .jnum conf05),
   ("reasoning", .jstr "r")]

/-- A fully valid response. -/
def goodFields : List (String × JVal) :=
  [("disclosure_found", .jbool true), ("disclosure_location", .jstr "beginning"),
   ("content_intent", .jstr "informative"), ("confidence_score", .jnum conf09),
   ("reasoning", .jstr "r")]

/-- The validated output of `goodFields`. -/
def goodOut : ValidatedAnalysis :=
  ⟨true, "beginning", "informative", conf09, .jstr "r"⟩

/-- Witness for C6: `confidence_score = 1.5` and
`disclosure_location = "unknown"` are both rejected (validation not ok,
matching the spec-side check, which is false), and on the valid response
the returned components are the exact field values. -/
theorem llm_validation_fail_closed_witness :
    ((validateLLMResponse (.ok (.jobj badConfFields))).isOk
        = specValidResponse (.ok (.jobj badConfFields)))
    ∧ specValidResponse (.ok (.jobj badConfFields)) = false
    ∧ ((validateLLMResponse (.ok (.jobj badLocFields))).isOk
        = specValidResponse (.ok (.jobj badLocFields)))
    ∧ specValidResponse (.ok (.jobj badLocFields)) = false
    ∧ ∃ fields, (Except.ok (JVal.jobj goodFields) : Except String JVal)
          = .ok (.jobj fields)
        ∧ jGet fields "disclosure_found" = some (.jbool goodOut.disclosure_found)
        ∧ jGet fields "disclosure_location" = some (.jstr goodOut.disclosure_location)
        ∧ jGet fields "content_intent" = some (.jstr goodOut.content_intent)
        ∧ (jGet fields "confidence_score" = some (.jnum goodOut.confidence_score)
            ∨ ∃ b, jGet fields "confidence_score" = some (.jbool b)
                ∧ goodOut.confidence_score = (if b then 1 else 0))
        ∧ jGet fields "reasoning" = some goodOut.reasoning :=
  ⟨llm_validation_fail_closed.1 (.ok (.jobj badConfFields)), by decide,
   llm_validation_fail_closed.1 (.ok (.jobj badLocFields)), by decide,
   llm_validation_fail_closed.2 (.ok (.jobj goodFields)) goodOut rfl⟩

/-- A response whose `confidence_score` is the JSON boolean `true`. -/
def boolConfFields : List (String × JVal) :=
  [("disclosure_found", .jbool true), ("disclosure_location", .jstr "nowhere"),
   ("content_intent", .jstr "informative"), ("confidence_score", .jbool true),
   ("reasoning", .jstr "ok")]

/-- **C10.** The confidence validation accepts Python booleans: `bool` is
a subtype of `int`, so `isinstance(confidence, (int, float))` holds for
`True` and the bound checks compare `True == 1`.  For a response whose
`confidence_score` field is the JSON boolean `true`, validation succeeds
and the returned `confidence_score` is `float(True) = 1.0` — even though
the field is documented as a number in `[0.0, 1.0]` (the field value
really is a boolean, not a number, as the second conjunct records). -/
theorem confidence_bool_accepted :
    validateLLMResponse (.ok (.jobj boolConfFields))
      = .ok ⟨true, "nowhere", "informative", 1, .jstr "ok"⟩
    ∧ jGet boolConfFields "confidence_score" = some (.jbool true)
    ∧ (∀ q : ℚ, jGet boolConfFields "confidence_score" ≠ some (.jnum q)) :=
  ⟨rfl, rfl, fun q h => by simp [jGet, boolConfFields, List.find?] at h⟩

end LLMAnalysis

end TruthSignal
